import Mathlib

/-!
Verification development for the ML corrective deformer repository.

The Python sources are embedded shallowly:
* machine floats are modelled as exact rationals (`ℚ`); host numeric
  primitives (the sine routine, the training losses produced by the
  numeric library) are parameters of the embedding;
* fallible host calls (Maya attribute reads, mesh reads, `setPosition`,
  the serialization backends) are modelled as `Except String` values or
  fault-injection parameters, so every exception path of the Python code
  is represented;
* side effects (appending a sample, writing a checkpoint file, writing
  an export artifact) are modelled as explicit state.
-/

namespace MLDeformer

/-- A 3-component vector, one mesh point or one per-vertex displacement. -/
structure Vec3 where
  x : ℚ
  y : ℚ
  z : ℚ
deriving Repr, DecidableEq

def Vec3.zero : Vec3 := ⟨0, 0, 0⟩

/-! ## Inference Gate: `MLCorrectiveDeformer.deform`
(`src/phase1_python_prototype/_archive/ml_corrective_deformer.py`)

The deformer body runs under one `try`/`except Exception` block.  Faults can
arise at the three `dataBlock.inputValue(...)` attribute reads, inside the
correction computation, or at a `geoIter.setPosition` call while applying.
The attribute reads are modelled as `Except String` inputs and the host
`setPosition` faults by an injection function `ℕ → Option String`. -/

/-- Host-side inputs of one `deform` evaluation: the three attribute reads
(each may raise), a fault injected into the correction computation
(`geoIter.position()` is a host call there too), and per-vertex faults of
`geoIter.setPosition`. -/
structure HostEnv where
  readPoseAngle : Except String ℚ
  readCorrectionWeight : Except String ℚ
  readEnableML : Except String Bool
  computeFault : Option String
  setPositionFault : ℕ → Option String

/-- `_compute_simple_correction`: for each vertex,
`y_factor = max 0 p.y`, `angle_factor = sin(radians(pose_angle))`, and the
correction is `(y_factor*angle_factor*0.1, 0, y_factor*angle_factor*0.05)`.
The host sine (in degrees, `np.sin ∘ np.radians`) is the parameter `sinDeg`. -/
def computeSimpleCorrection (sinDeg : ℚ → ℚ) (poseAngle : ℚ)
    (positions : List Vec3) : List Vec3 :=
  positions.map fun p =>
    let yFactor := max 0 p.y
    let angleFactor := sinDeg poseAngle
    ⟨yFactor * angleFactor * (1/10), 0, yFactor * angleFactor * (1/20)⟩

/-- One vertex update of the apply loop:
`point += correction * correction_weight`, componentwise. -/
def applyWeighted (p c : Vec3) (w : ℚ) : Vec3 :=
  ⟨p.x + c.x * w, p.y + c.y * w, p.z + c.z * w⟩

/-- Where, relative to the `try` block of `deform`, an exception was raised. -/
inductive GateFault where
  /-- raised before any `setPosition`: an attribute read or the correction
  computation. -/
  | beforeApply : String → GateFault
  /-- raised by `setPosition` while applying, at the given vertex index. -/
  | duringApply : ℕ → String → GateFault
deriving Repr, DecidableEq

/-- The apply loop of `deform`: iterate the vertices with their indices; a
vertex whose index has a correction entry (`vertex_index < len(corrections)`)
is moved by the weighted correction, others are skipped.  A `setPosition`
fault stops the loop: the faulting vertex and all later ones keep their
positions, and the exception is handed to the `except` clause. -/
def applyLoop (w : ℚ) (corrections : List Vec3) (fault : ℕ → Option String) :
    ℕ → List Vec3 → List Vec3 × Option (ℕ × String)
  | _, [] => ([], none)
  | i, p :: rest =>
    match corrections.get? i with
    | none =>
      let r := applyLoop w corrections fault (i + 1) rest
      (p :: r.1, r.2)
    | some c =>
      match fault i with
      | some e => (p :: rest, some (i, e))
      | none =>
        let r := applyLoop w corrections fault (i + 1) rest
        (applyWeighted p c w :: r.1, r.2)

/-- The body of `deform` inside the `try` block: read the three attributes,
return unchanged if `enableML` is false, else compute the corrections and run
the apply loop.  The second component is the exception that reached the
`except` clause, if any. -/
def deformBody (sinDeg : ℚ → ℚ) (env : HostEnv) (positions : List Vec3) :
    List Vec3 × Option GateFault :=
  match env.readPoseAngle with
  | .error e => (positions, some (.beforeApply e))
  | .ok poseAngle =>
    match env.readCorrectionWeight with
    | .error e => (positions, some (.beforeApply e))
    | .ok w =>
      match env.readEnableML with
      | .error e => (positions, some (.beforeApply e))
      | .ok enable =>
        if !enable then (positions, none)
        else
          match env.computeFault with
          | some e => (positions, some (.beforeApply e))
          | none =>
            let r := applyLoop w (computeSimpleCorrection sinDeg poseAngle positions)
              env.setPositionFault 0 positions
            (r.1, r.2.map fun ie => .duringApply ie.1 ie.2)

/-- `deform` as seen by the caller (Maya's evaluation graph): the
`except Exception` clause swallows every fault, so `deform` is total and
returns the mesh positions as left by the body. -/
def deform (sinDeg : ℚ → ℚ) (env : HostEnv) (positions : List Vec3) :
    List Vec3 :=
  (deformBody sinDeg env positions).1

/-! ## Sample Store / Pose Sampler: `DataCollector`
(`src/utils/data_collector.py`)

The collector reads the scene through `maya.cmds` / `OpenMaya`; the scene is
modelled as a map from (joint, axis) attribute pairs to values plus a map
from mesh names to vertex-position lists (`none` = the object does not
exist, so `MSelectionList.add` raises).  Sample timestamps are not modelled:
`save_dataset` does not persist them and no claim mentions them. -/

/-- The Maya scene as read and written by the collector. -/
structure Scene where
  attrs : String → String → ℚ
  meshes : String → Option (List Vec3)

/-- `cmds.setAttr(f"{joint}.{axis}", v)`. -/
def setAttr (s : Scene) (joint axis : String) (v : ℚ) : Scene :=
  { s with attrs := fun j a => if j = joint ∧ a = axis then v else s.attrs j a }

/-- One captured sample: the raw joint angles (degrees, as
`cmds.getAttr` returns them) and the per-vertex deltas. -/
structure Sample where
  joint_angles : List ℚ
  vertex_deltas : List Vec3
deriving Repr, DecidableEq

/-- The `DataCollector` state: tracked joints, base/corrective mesh names,
the accumulated samples and the vertex count read at construction. -/
structure DataCollector where
  base_mesh : String
  joints : List String
  corrective_mesh : Option String
  samples : List Sample
  num_vertices : ℕ
deriving DecidableEq

/-- `_get_joint_angles`: `[rx, ry, rz]` of every tracked joint, concatenated. -/
def getJointAngles (c : DataCollector) (s : Scene) : List ℚ :=
  c.joints.flatMap fun j =>
    [s.attrs j "rotateX", s.attrs j "rotateY", s.attrs j "rotateZ"]

/-- `_get_vertex_positions`: raises if the object does not exist. -/
def getVertexPositions (s : Scene) (mesh : String) :
    Except String (List Vec3) :=
  match s.meshes mesh with
  | some ps => .ok ps
  | none => .error "kInvalidParameter"

def Vec3.sub (a b : Vec3) : Vec3 := ⟨a.x - b.x, a.y - b.y, a.z - b.z⟩

/-- `corrective_positions - base_positions` with numpy broadcasting over the
leading axis: equal lengths subtract pointwise, a length-1 operand
broadcasts, anything else raises a broadcast `ValueError`. -/
def subPositions (corrective base : List Vec3) : Except String (List Vec3) :=
  if corrective.length = base.length then
    .ok (List.zipWith Vec3.sub corrective base)
  else
    match corrective, base with
    | [c], _ => .ok (base.map fun b => Vec3.sub c b)
    | _, [b] => .ok (corrective.map fun c => Vec3.sub c b)
    | _, _ => .error "ValueError: operands could not be broadcast"

/-- `capture_sample`: read the joint angles and base positions; if a
corrective mesh is given (argument overrides the stored one) and exists,
the deltas are `corrective - base`, else zeros; append the sample.  No
shape check of any kind is made before appending. -/
def capture_sample (c : DataCollector) (s : Scene)
    (correctiveOverride : Option String) : Except String DataCollector :=
  let jointAngles := getJointAngles c s
  match getVertexPositions s c.base_mesh with
  | .error e => .error e
  | .ok basePositions =>
    let target := correctiveOverride.or c.corrective_mesh
    let deltasE : Except String (List Vec3) :=
      match target with
      | some t =>
        if (s.meshes t).isSome then
          match getVertexPositions s t with
          | .error e => .error e
          | .ok cps => subPositions cps basePositions
        else .ok (basePositions.map fun _ => Vec3.zero)
      | none => .ok (basePositions.map fun _ => Vec3.zero)
    match deltasE with
    | .error e => .error e
    | .ok vertexDeltas =>
      .ok { c with samples := c.samples ++ [⟨jointAngles, vertexDeltas⟩] }

/-- `np.linspace(start, stop, num)`: `num` evenly spaced values over
`[start, stop]` inclusive; `num = 1` gives `[start]`. -/
def linspace (start stop : ℚ) : ℕ → List ℚ
  | 0 => []
  | 1 => [start]
  | n + 2 =>
    (List.range (n + 2)).map fun i : ℕ =>
      start + (stop - start) * (i : ℚ) / ((n : ℚ) + 1)

/-- The capture loop of `capture_pose_range`: for each angle in turn, set
the channel, refresh, capture a sample. -/
def captureSteps (joint axis : String) :
    List ℚ → DataCollector → Scene → Except String (DataCollector × Scene)
  | [], c, s => .ok (c, s)
  | angle :: rest, c, s =>
    let s' := setAttr s joint axis angle
    match capture_sample c s' none with
    | .error e => .error e
    | .ok c' => captureSteps joint axis rest c' s'

/-- `capture_pose_range`: remember the channel's value, run the capture
loop over the `linspace` values, then restore the channel.  An exception
mid-range propagates (no `finally`): already captured samples are kept and
the channel is not restored. -/
def capture_pose_range (c : DataCollector) (s : Scene) (joint axis : String)
    (start stop : ℚ) (steps : ℕ) :
    Except String (DataCollector × Scene) :=
  let original := s.attrs joint axis
  match captureSteps joint axis (linspace start stop steps) c s with
  | .error e => .error e
  | .ok cs => .ok (cs.1, setAttr cs.2 joint axis original)

/-- The on-disk `.npz` dataset container written by `save_dataset`:
arrays `joint_angles`, `vertex_deltas`, plus `joint_names` and a
`num_vertices` scalar. -/
structure DatasetFile where
  joint_angles : List (List ℚ)
  vertex_deltas : List (List Vec3)
  joint_names : List String
  num_vertices : ℕ
deriving DecidableEq

/-- `save_dataset`: refuses an empty store (returns without writing); else
writes the stacked per-sample arrays, the joint angles first converted to
radians (`np.deg2rad`) and then divided by `π` — together an exact division
by 180. -/
def save_dataset (c : DataCollector) : Option DatasetFile :=
  if c.samples = [] then none
  else some
    { joint_angles := c.samples.map fun smp => smp.joint_angles.map (· / 180)
      vertex_deltas := c.samples.map fun smp => smp.vertex_deltas
      joint_names := c.joints
      num_vertices := c.num_vertices }

/-! ## Dataset loader: `CorrectiveDeformerDataset.__init__`
(`src/ml_training/train.py`)

The constructor loads `joint_angles` and `vertex_deltas`, converts them to
tensors, and reads `num_samples = len(joint_angles)`,
`num_joints = joint_angles.shape[1]`,
`num_vertices = vertex_deltas.shape[1]`.  It performs no cross-array
consistency check and never reads the stored `num_vertices` scalar or
`joint_names`.  Arrays are modelled by their rows, so `shape[1]` is the
first row's length and is defined only for a non-empty array (an array
built from an empty list is 1-D and `shape[1]` raises `IndexError`). -/

/-- The in-memory dataset object the constructor builds. -/
structure CorrectiveDeformerDataset where
  joint_angles : List (List ℚ)
  vertex_deltas : List (List Vec3)
  num_samples : ℕ
  num_joints : ℕ
  num_vertices : ℕ
deriving DecidableEq

/-- `CorrectiveDeformerDataset.__init__` on an already-parsed file. -/
def loadDataset (f : DatasetFile) : Except String CorrectiveDeformerDataset :=
  match f.joint_angles.head? with
  | none => .error "IndexError: shape"
  | some row0 =>
    match f.vertex_deltas.head? with
    | none => .error "IndexError: shape"
    | some d0 =>
      .ok { joint_angles := f.joint_angles
            vertex_deltas := f.vertex_deltas
            num_samples := f.joint_angles.length
            num_joints := row0.length
            num_vertices := d0.length }

/-! ## Trainer: `Trainer.train` (`src/ml_training/train.py`)

The numeric outcome of an epoch (mean train loss, mean validation loss) is
produced by the external numeric library; it is the parameter
`losses : ℕ → ℚ × ℚ`.  The learning-rate scheduler
(`ReduceLROnPlateau`) only adjusts the optimizer and never touches the
checkpointing path, so it carries no modelled state. -/

/-- A checkpoint file written by `save_checkpoint`, identified by its
filename kind and carrying the epoch index and validation loss recorded
in it. -/
inductive CheckpointKind where
  /-- `best_model.pth`. -/
  | best
  /-- `checkpoint_epoch_{n}.pth`. -/
  | periodic (n : ℕ)
deriving Repr, DecidableEq

/-- The `Trainer` state touched by the loop: the loss histories, the best
validation loss seen (`none` models the initial `float('inf')`), and the
checkpoints written so far, in order. -/
structure TrainerState where
  train_losses : List ℚ
  val_losses : List ℚ
  best_val_loss : Option ℚ
  checkpoints : List (CheckpointKind × ℕ × ℚ)
deriving DecidableEq

/-- The fresh state `Trainer.__init__` sets up. -/
def initTrainer : TrainerState :=
  { train_losses := [], val_losses := [], best_val_loss := none,
    checkpoints := [] }

/-- `val_loss < self.best_val_loss`, with `best = none` standing for
`float('inf')`. -/
def beatsBest (v : ℚ) : Option ℚ → Bool
  | none => true
  | some b => v < b

/-- One iteration of the epoch loop: append both losses, write
`best_model.pth` when the validation loss beats the best seen, and write a
periodic checkpoint when `(epoch+1) % 10 == 0`. -/
def trainEpochStep (losses : ℕ → ℚ × ℚ) (st : TrainerState) (epoch : ℕ) :
    TrainerState :=
  let tl := (losses epoch).1
  let vl := (losses epoch).2
  let st := { st with train_losses := st.train_losses ++ [tl],
                      val_losses := st.val_losses ++ [vl] }
  let st :=
    if beatsBest vl st.best_val_loss then
      { st with best_val_loss := some vl,
                checkpoints := st.checkpoints ++ [(.best, epoch, vl)] }
    else st
  if (epoch + 1) % 10 = 0 then
    { st with checkpoints := st.checkpoints ++ [(.periodic (epoch + 1), epoch, vl)] }
  else st

/-- `Trainer.train`: the epoch loop `for epoch in range(num_epochs)` from a
fresh trainer. -/
def train (losses : ℕ → ℚ × ℚ) (numEpochs : ℕ) : TrainerState :=
  (List.range numEpochs).foldl (trainEpochStep losses) initTrainer

/-! ## Exporter: `Trainer.export_for_maya` (`src/ml_training/train.py`)

The method reads `self.model.num_joints` (before building the example
input), attempts the TorchScript export and then the ONNX export each in
its own `try`/`except`, and finally writes the metadata JSON, reading
`self.model.num_vertices` there.  Attribute presence depends on the model
class: `CorrectiveDeformerNet` sets both `num_joints` and `num_vertices`,
`CompactCorrectiveNet` sets `num_joints` (and `pca_components`) but not
`num_vertices`, `ResidualCorrectiveNet` sets `num_vertices` but not
`num_joints`.  A missing attribute raises `AttributeError`, which is not
caught in `export_for_maya`. -/

/-- The attributes a model object exposes (`none` = attribute absent, so
reading it raises `AttributeError`). -/
structure ModelAttrs where
  num_joints : Option ℕ
  num_vertices : Option ℕ
  pca_components : Option ℕ
deriving DecidableEq

/-- The metadata descriptor written to `model_metadata.json`. -/
structure ExportMetadata where
  num_joints : ℕ
  num_vertices : ℕ
  best_val_loss : Option ℚ
  export_date : String
deriving DecidableEq

/-- What one `export_for_maya` call left on disk, and the exception that
escaped it, if any. -/
structure ExportOutcome where
  torchscriptWritten : Bool
  onnxWritten : Bool
  metadataWritten : Option ExportMetadata
  raised : Option String
deriving DecidableEq

/-- `export_for_maya`: the two serialization backends are the external
parameters `tsExport` and `onnxExport` (each may fail); each is attempted
under its own `try`/`except`, the metadata write follows unconditionally —
but the uncaught attribute reads `model.num_joints` (before any attempt)
and `model.num_vertices` (at the metadata step) abort the method when the
attribute is absent. -/
def export_for_maya (model : ModelAttrs)
    (tsExport onnxExport : Except String Unit)
    (bestValLoss : Option ℚ) (exportDate : String) : ExportOutcome :=
  match model.num_joints with
  | none =>
    { torchscriptWritten := false, onnxWritten := false,
      metadataWritten := none,
      raised := some "AttributeError: num_joints" }
  | some nj =>
    let tsW := tsExport.toBool
    let onnxW := onnxExport.toBool
    match model.num_vertices with
    | none =>
      { torchscriptWritten := tsW, onnxWritten := onnxW,
        metadataWritten := none,
        raised := some "AttributeError: num_vertices" }
    | some nv =>
      { torchscriptWritten := tsW, onnxWritten := onnxW,
        metadataWritten := some
          { num_joints := nj, num_vertices := nv,
            best_val_loss := bestValLoss, export_date := exportDate },
        raised := none }

/-! ## Model construction: `model.py`

`nn.Linear(i, o)` succeeds for any non-negative sizes (zero included) and
raises a `RuntimeError` for a negative one; no constructor in `model.py`
validates its arguments itself.  A network is represented by the ordered
list of its linear-layer shapes together with the stored attributes. -/

/-- A constructed network: its linear layers' `(in, out)` shapes in order,
and the instance attributes the class sets. -/
structure BuiltNet where
  layerShapes : List (ℤ × ℤ)
  attrs : ModelAttrs
deriving DecidableEq

/-- `nn.Linear(inF, outF)`: raises iff a dimension is negative. -/
def mkLinear (inF outF : ℤ) : Except String (ℤ × ℤ) :=
  if inF < 0 ∨ outF < 0 then
    .error "RuntimeError: negative dimension"
  else .ok (inF, outF)

/-- Build the stacked hidden layers: one `nn.Linear(input, h)` per hidden
size, threading the input size. -/
def buildHidden : ℤ → List ℤ → Except String (List (ℤ × ℤ))
  | _, [] => .ok []
  | inSize, h :: rest =>
    match mkLinear inSize h with
    | .error e => .error e
    | .ok l =>
      match buildHidden h rest with
      | .error e => .error e
      | .ok ls => .ok (l :: ls)

/-- `CorrectiveDeformerNet.__init__`: hidden stack (ReLU and Dropout steps
build unconditionally and are not recorded), then the output layer
`nn.Linear(last, num_vertices*3)`; sets `num_joints` and `num_vertices`. -/
def CorrectiveDeformerNet (num_joints num_vertices : ℤ)
    (hidden_layers : List ℤ) : Except String BuiltNet :=
  match buildHidden num_joints hidden_layers with
  | .error e => .error e
  | .ok hs =>
    let lastSize := hidden_layers.getLast?.getD num_joints
    match mkLinear lastSize (num_vertices * 3) with
    | .error e => .error e
    | .ok out =>
      .ok { layerShapes := hs ++ [out],
            attrs := { num_joints := some num_joints.toNat,
                       num_vertices := some num_vertices.toNat,
                       pca_components := none } }

/-- `CompactCorrectiveNet.__init__`: hidden stack then
`nn.Linear(last, pca_components)`; sets `num_joints` and `pca_components`
but not `num_vertices`. -/
def CompactCorrectiveNet (num_joints pca_components : ℤ)
    (hidden_layers : List ℤ) : Except String BuiltNet :=
  match buildHidden num_joints hidden_layers with
  | .error e => .error e
  | .ok hs =>
    let lastSize := hidden_layers.getLast?.getD num_joints
    match mkLinear lastSize pca_components with
    | .error e => .error e
    | .ok out =>
      .ok { layerShapes := hs ++ [out],
            attrs := { num_joints := some num_joints.toNat,
                       num_vertices := none,
                       pca_components := some pca_components.toNat } }

/-- `ResidualCorrectiveNet.__init__`: input projection, `num_blocks`
residual blocks of two square linears each, output projection; sets
`num_vertices` but not `num_joints`. -/
def ResidualCorrectiveNet (num_joints num_vertices : ℤ)
    (hidden_size : ℤ) (num_blocks : ℕ) : Except String BuiltNet :=
  match mkLinear num_joints hidden_size with
  | .error e => .error e
  | .ok inProj =>
    match mkLinear hidden_size hidden_size with
    | .error e => .error e
    | .ok block =>
      let blocks := (List.replicate num_blocks [block, block]).flatten
      match mkLinear hidden_size (num_vertices * 3) with
      | .error e => .error e
      | .ok outProj =>
        .ok { layerShapes := inProj :: blocks ++ [outProj],
              attrs := { num_joints := none,
                         num_vertices := some num_vertices.toNat,
                         pca_components := none } }

/-- The keyword arguments `create_model` consults, each optional with the
source's default filled in when absent. -/
structure CreateModelKwargs where
  hidden_layers : Option (List ℤ) := none
  pca_components : Option ℤ := none
  hidden_size : Option ℤ := none
  num_blocks : Option ℕ := none

/-- `create_model`: a string-keyed factory; `'standard'`, `'compact'` and
`'residual'` dispatch to the three constructors with the defaulted keyword
arguments, anything else raises `ValueError`.  No dimension validation of
its own. -/
def create_model (model_type : String) (num_joints num_vertices : ℤ)
    (kw : CreateModelKwargs) : Except String BuiltNet :=
  if model_type = "standard" then
    CorrectiveDeformerNet num_joints num_vertices
      (kw.hidden_layers.getD [256, 512, 512, 256])
  else if model_type = "compact" then
    CompactCorrectiveNet num_joints (kw.pca_components.getD 50)
      (kw.hidden_layers.getD [128, 256, 128])
  else if model_type = "residual" then
    ResidualCorrectiveNet num_joints num_vertices
      (kw.hidden_size.getD 512) (kw.num_blocks.getD 4)
  else
    .error "ValueError: Unknown model type"

/-! ## Lemmas about the apply loop -/

/-- A fault reported by the apply loop occurred at or after the start index. -/
lemma applyLoop_fault_ge (w : ℚ) (cs : List Vec3) (f : ℕ → Option String) :
    ∀ (ps : List Vec3) (i k : ℕ) (e : String),
      (applyLoop w cs f i ps).2 = some (k, e) → i ≤ k := by
  intro ps
  induction ps with
  | nil => intro i k e h; simp [applyLoop] at h
  | cons p rest ih =>
    intro i k e h
    unfold applyLoop at h
    cases hc : cs.get? i with
    | none =>
      rw [hc] at h
      exact Nat.le_of_succ_le (ih (i + 1) k e h)
    | some c =>
      rw [hc] at h
      cases hf : f i with
      | some e' =>
        rw [hf] at h
        simp only [Option.some.injEq, Prod.mk.injEq] at h
        omega
      | none =>
        rw [hf] at h
        exact Nat.le_of_succ_le (ih (i + 1) k e h)

/-- After a `setPosition` fault at absolute index `k`, every vertex at
index `k` or later keeps its position. -/
lemma applyLoop_fault_frozen (w : ℚ) (cs : List Vec3) (f : ℕ → Option String) :
    ∀ (ps : List Vec3) (i k : ℕ) (e : String),
      (applyLoop w cs f i ps).2 = some (k, e) →
      ∀ j, k ≤ i + j →
        (applyLoop w cs f i ps).1.get? j = ps.get? j := by
  intro ps
  induction ps with
  | nil => intro i k e h; simp [applyLoop] at h
  | cons p rest ih =>
    intro i k e h j hj
    unfold applyLoop at h ⊢
    cases hc : cs.get? i with
    | none =>
      rw [hc] at h
      cases j with
      | zero => rfl
      | succ j' =>
        show (p :: (applyLoop w cs f (i + 1) rest).1).get? (j' + 1)
            = (p :: rest).get? (j' + 1)
        simp only [List.get?_cons_succ]
        exact ih (i + 1) k e h j' (by omega)
    | some c =>
      rw [hc] at h
      cases hf : f i with
      | some e' => rfl
      | none =>
        rw [hf] at h
        cases j with
        | zero =>
          exfalso
          have hge := applyLoop_fault_ge w cs f rest (i + 1) k e h
          omega
        | succ j' =>
          show (applyWeighted p c w :: (applyLoop w cs f (i + 1) rest).1).get? (j' + 1)
              = (p :: rest).get? (j' + 1)
          simp only [List.get?_cons_succ]
          exact ih (i + 1) k e h j' (by omega)

/-- With no `setPosition` fault the apply loop reports no exception and
updates exactly the vertices whose absolute index has a correction entry,
each by the weighted correction. -/
lemma applyLoop_nofault (w : ℚ) (cs : List Vec3) :
    ∀ (ps : List Vec3) (n : ℕ),
      (applyLoop w cs (fun _ => none) n ps).2 = none ∧
      ∀ j, (applyLoop w cs (fun _ => none) n ps).1.get? j =
        (ps.get? j).map fun p =>
          match cs.get? (n + j) with
          | some c => applyWeighted p c w
          | none => p := by
  intro ps
  induction ps with
  | nil =>
    intro n
    refine ⟨rfl, ?_⟩
    intro j
    simp [applyLoop]
  | cons p rest ih =>
    intro n
    unfold applyLoop
    cases hc : cs.get? n with
    | none =>
      refine ⟨(ih (n + 1)).1, ?_⟩
      intro j
      cases j with
      | zero =>
        simp only [List.get?_cons_zero, Option.map_some, Nat.add_zero]
        rw [hc]
        rfl
      | succ j' =>
        simp only [List.get?_cons_succ]
        have harith : n + (j' + 1) = (n + 1) + j' := by omega
        rw [harith]
        exact (ih (n + 1)).2 j'
    | some c =>
      refine ⟨(ih (n + 1)).1, ?_⟩
      intro j
      cases j with
      | zero =>
        simp only [List.get?_cons_zero, Option.map_some, Nat.add_zero]
        rw [hc]
        rfl
      | succ j' =>
        simp only [List.get?_cons_succ]
        have harith : n + (j' + 1) = (n + 1) + j' := by omega
        rw [harith]
        exact (ih (n + 1)).2 j'

/-! ## Claim theorems: Inference Gate -/

/-- C1: every exception raised during a `deform` evaluation — attribute
reads, the correction computation, or applying the corrections — is caught
inside the gate: the caller receives the body's positions, a fault before
the apply loop leaves all positions unchanged (a zero DeltaField), and a
fault at vertex `k` of the apply loop leaves every vertex from `k` on
unchanged (no further displacement). -/
theorem inference_gate_fail_soft (sinDeg : ℚ → ℚ) (env : HostEnv)
    (ps : List Vec3) :
    deform sinDeg env ps = (deformBody sinDeg env ps).1 ∧
    (∀ e, (deformBody sinDeg env ps).2 = some (.beforeApply e) →
      deform sinDeg env ps = ps) ∧
    (∀ k e, (deformBody sinDeg env ps).2 = some (.duringApply k e) →
      ∀ i, k ≤ i → (deform sinDeg env ps).get? i = ps.get? i) := by
  refine ⟨rfl, ?_, ?_⟩
  · intro e he
    show (deformBody sinDeg env ps).1 = ps
    unfold deformBody at he ⊢
    cases hp : env.readPoseAngle with
    | error e' => rfl
    | ok pose =>
      rw [hp] at he
      cases hw : env.readCorrectionWeight with
      | error e' => rfl
      | ok w =>
        rw [hw] at he
        cases hen : env.readEnableML with
        | error e' => rfl
        | ok enable =>
          rw [hen] at he
          cases enable with
          | false => rfl
          | true =>
            cases hcf : env.computeFault with
            | some e' => rfl
            | none =>
              rw [hcf] at he
              exfalso
              have he' : ((applyLoop w (computeSimpleCorrection sinDeg pose ps)
                    env.setPositionFault 0 ps).2.map
                  fun ie => GateFault.duringApply ie.1 ie.2)
                  = some (GateFault.beforeApply e) := he
              cases hr : (applyLoop w (computeSimpleCorrection sinDeg pose ps)
                  env.setPositionFault 0 ps).2 with
              | none => rw [hr] at he'; simp at he'
              | some ke => rw [hr] at he'; simp at he'
  · intro k e he i hki
    show (deformBody sinDeg env ps).1.get? i = ps.get? i
    unfold deformBody at he ⊢
    cases hp : env.readPoseAngle with
    | error e' => rw [hp] at he
    | ok pose =>
      rw [hp] at he
      cases hw : env.readCorrectionWeight with
      | error e' => rw [hw] at he
      | ok w =>
        rw [hw] at he
        cases hen : env.readEnableML with
        | error e' => rw [hen] at he
        | ok enable =>
          rw [hen] at he
          cases enable with
          | false => simp at he
          | true =>
            cases hcf : env.computeFault with
            | some e' => rw [hcf] at he; simp at he
            | none =>
              rw [hcf] at he
              have he' : ((applyLoop w (computeSimpleCorrection sinDeg pose ps)
                    env.setPositionFault 0 ps).2.map
                  fun ie => GateFault.duringApply ie.1 ie.2)
                  = some (GateFault.duringApply k e) := he
              show (applyLoop w (computeSimpleCorrection sinDeg pose ps)
                  env.setPositionFault 0 ps).1.get? i = ps.get? i
              cases hr : (applyLoop w (computeSimpleCorrection sinDeg pose ps)
                  env.setPositionFault 0 ps).2 with
              | none => rw [hr] at he'; simp at he'
              | some ke =>
                obtain ⟨k', e'⟩ := ke
                rw [hr] at he'
                have hkk : k' = k ∧ e' = e := by simpa using he'
                obtain ⟨hk, hev⟩ := hkk
                subst hk; subst hev
                exact applyLoop_fault_frozen w
                  (computeSimpleCorrection sinDeg pose ps)
                  env.setPositionFault ps 0 k' e' hr i (by omega)

/-- Witness for C1: a failing pose-angle read leaves the mesh untouched,
and a `setPosition` fault at vertex 0 leaves vertex 1 untouched. -/
theorem inference_gate_fail_soft_witness :
    deform (fun _ => 1)
      ⟨.error "boom", .ok 1, .ok true, none, fun _ => none⟩
      [⟨1, 2, 3⟩] = [⟨1, 2, 3⟩] ∧
    (deform (fun _ => 1)
      ⟨.ok 0, .ok 1, .ok true, none, fun i => if i = 0 then some "crash" else none⟩
      [⟨1, 2, 3⟩, ⟨4, 5, 6⟩]).get? 1 = some ⟨4, 5, 6⟩ :=
  ⟨(inference_gate_fail_soft (fun _ => 1)
      ⟨.error "boom", .ok 1, .ok true, none, fun _ => none⟩
      [⟨1, 2, 3⟩]).2.1 "boom" rfl,
   (inference_gate_fail_soft (fun _ => 1)
      ⟨.ok 0, .ok 1, .ok true, none, fun i => if i = 0 then some "crash" else none⟩
      [⟨1, 2, 3⟩, ⟨4, 5, 6⟩]).2.2 0 "crash" rfl 1 (by omega)⟩

/-- C2: when the `enableML` read yields `false`, `deform` returns without
setting any vertex position: the mesh stays at its pre-correction state,
for every pose angle, correction weight and mesh state. -/
theorem inference_gate_disabled_noop (sinDeg : ℚ → ℚ) (env : HostEnv)
    (ps : List Vec3) (h : env.readEnableML = .ok false) :
    deform sinDeg env ps = ps := by
  unfold deform deformBody
  cases hp : env.readPoseAngle with
  | error e => rfl
  | ok pose =>
    cases hw : env.readCorrectionWeight with
    | error e => rfl
    | ok w =>
      rw [h]
      rfl

/-- Witness for C2 at a concrete environment and mesh. -/
theorem inference_gate_disabled_noop_witness :
    deform (fun _ => 1)
      ⟨.ok 45, .ok 2, .ok false, none, fun _ => none⟩
      [⟨1, 2, 3⟩, ⟨4, 5, 6⟩] = [⟨1, 2, 3⟩, ⟨4, 5, 6⟩] :=
  inference_gate_disabled_noop (fun _ => 1)
    ⟨.ok 45, .ok 2, .ok false, none, fun _ => none⟩
    [⟨1, 2, 3⟩, ⟨4, 5, 6⟩] rfl

/-- C10: in a fault-free enabled evaluation, the apply loop leaves every
vertex whose index has no correction entry exactly in place and moves every
in-range vertex by the weighted correction; and `deform` is exactly that
apply loop over the computed corrections. -/
theorem inference_gate_index_guard (w : ℚ) (cs ps : List Vec3) :
    (∀ i p, ps.get? i = some p →
      (applyLoop w cs (fun _ => none) 0 ps).1.get? i =
        if h : i < cs.length then some (applyWeighted p (cs.get ⟨i, h⟩) w)
        else some p) ∧
    (∀ (sinDeg : ℚ → ℚ) (env : HostEnv) (pose : ℚ) (ps' : List Vec3),
      env.readPoseAngle = .ok pose → env.readCorrectionWeight = .ok w →
      env.readEnableML = .ok true → env.computeFault = none →
      env.setPositionFault = (fun _ => none) →
      deform sinDeg env ps' =
        (applyLoop w (computeSimpleCorrection sinDeg pose ps')
          (fun _ => none) 0 ps').1) := by
  constructor
  · intro i p hp
    have := (applyLoop_nofault w cs ps 0).2 i
    rw [hp] at this
    rw [this]
    simp only [Nat.zero_add, Option.map_some]
    by_cases h : i < cs.length
    · rw [List.get?_eq_get h]
      simp [h]
    · rw [List.get?_eq_none.mpr (by omega)]
      simp [h]
  · intro sinDeg env pose ps' h1 h2 h3 h4 h5
    unfold deform deformBody
    rw [h1, h2, h3, h4, h5]
    rfl

/-- Witness for C10: an out-of-range vertex stays in place, an in-range one
is moved by the weighted correction, and a concrete fault-free enabled
`deform` equals its apply loop. -/
theorem inference_gate_index_guard_witness :
    ((applyLoop 2 [⟨1, 0, 0⟩] (fun _ => none) 0
        [⟨0, 0, 0⟩, ⟨5, 5, 5⟩]).1.get? 1 =
      if h : 1 < [(⟨1, 0, 0⟩ : Vec3)].length
      then some (applyWeighted ⟨5, 5, 5⟩ ([(⟨1, 0, 0⟩ : Vec3)].get ⟨1, h⟩) 2)
      else some ⟨5, 5, 5⟩) ∧
    deform (fun _ => 1)
      ⟨.ok 30, .ok 2, .ok true, none, fun _ => none⟩ [⟨0, 7, 0⟩] =
      (applyLoop 2
        (computeSimpleCorrection (fun _ => 1) 30 [⟨0, 7, 0⟩])
        (fun _ => none) 0 [⟨0, 7, 0⟩]).1 :=
  ⟨(inference_gate_index_guard 2 [⟨1, 0, 0⟩] [⟨0, 0, 0⟩, ⟨5, 5, 5⟩]).1 1
      ⟨5, 5, 5⟩ rfl,
   (inference_gate_index_guard 2 [⟨1, 0, 0⟩] [⟨0, 0, 0⟩, ⟨5, 5, 5⟩]).2
      (fun _ => 1) ⟨.ok 30, .ok 2, .ok true, none, fun _ => none⟩ 30
      [⟨0, 7, 0⟩] rfl rfl rfl rfl rfl⟩

/-! ## Lemmas about the collector -/

/-- Position of a rotation axis inside a joint's `[rx, ry, rz]` block of
the pose vector. -/
def axisIndex (axis : String) : Option ℕ :=
  if axis = "rotateX" then some 0
  else if axis = "rotateY" then some 1
  else if axis = "rotateZ" then some 2
  else none

/-- With an existing base mesh and no corrective mesh, `capture_sample`
appends one sample — raw joint angles, zero deltas — with no shape check. -/
lemma capture_sample_none (c : DataCollector) (s : Scene) (basePs : List Vec3)
    (hb : s.meshes c.base_mesh = some basePs) (hc : c.corrective_mesh = none) :
    capture_sample c s none = .ok
      { c with samples := c.samples ++
          [⟨getJointAngles c s, basePs.map fun _ => Vec3.zero⟩] } := by
  unfold capture_sample getVertexPositions
  rw [hb, hc]
  rfl

/-- A corrective mesh whose vertex count is incompatible with the base
mesh's (different, neither side a single row) makes the numpy subtraction
raise a broadcast error. -/
lemma subPositions_error (corrective base : List Vec3)
    (hne : corrective.length ≠ base.length)
    (h1 : corrective.length ≠ 1) (h2 : base.length ≠ 1) :
    subPositions corrective base =
      .error "ValueError: operands could not be broadcast" := by
  unfold subPositions
  rw [if_neg hne]
  rcases corrective with _ | ⟨c0, cr⟩
  · rcases base with _ | ⟨b0, br⟩
    · rfl
    · rcases br with _ | ⟨b1, br⟩
      · exact absurd rfl h2
      · rfl
  · rcases cr with _ | ⟨c1, cr⟩
    · exact absurd rfl h1
    · rcases base with _ | ⟨b0, br⟩
      · rfl
      · rcases br with _ | ⟨b1, br⟩
        · exact absurd rfl h2
        · rfl

/-- `capture_sample` with an incompatible corrective mesh propagates the
broadcast error and appends nothing. -/
lemma capture_sample_broadcast_error (c : DataCollector) (s : Scene)
    (t : String) (basePs corrPs : List Vec3)
    (hb : s.meshes c.base_mesh = some basePs) (hct : c.corrective_mesh = some t)
    (ht : s.meshes t = some corrPs)
    (hne : corrPs.length ≠ basePs.length)
    (h1 : corrPs.length ≠ 1) (h2 : basePs.length ≠ 1) :
    capture_sample c s none =
      .error "ValueError: operands could not be broadcast" := by
  unfold capture_sample getVertexPositions
  rw [hb, hct]
  simp only [Option.none_or]
  rw [ht]
  simp only [Option.isSome_some, if_true]
  show (match subPositions corrPs basePs with
    | .error e => (.error e : Except String DataCollector)
    | .ok vertexDeltas =>
      .ok { c with corrective_mesh := some t, samples := c.samples ++
        [(⟨getJointAngles c s, vertexDeltas⟩ : Sample)] })
    = .error "ValueError: operands could not be broadcast"
  rw [subPositions_error corrPs basePs hne h1 h2]

/-- C4 (corrected): `capture_sample` performs no shape validation against
the store — with no corrective mesh it appends a sample unconditionally,
whatever the pose-vector length of earlier samples; the only shape failure
is the numpy broadcast error on an incompatible corrective mesh, which
raises and appends nothing. -/
theorem sample_store_no_shape_check (c : DataCollector) (s : Scene)
    (basePs : List Vec3) (hb : s.meshes c.base_mesh = some basePs) :
    (c.corrective_mesh = none →
      capture_sample c s none = .ok
        { c with samples := c.samples ++
            [⟨getJointAngles c s, basePs.map fun _ => Vec3.zero⟩] }) ∧
    (∀ t corrPs, c.corrective_mesh = some t → s.meshes t = some corrPs →
      corrPs.length ≠ basePs.length → corrPs.length ≠ 1 → basePs.length ≠ 1 →
      capture_sample c s none =
        .error "ValueError: operands could not be broadcast") :=
  ⟨fun hc => capture_sample_none c s basePs hb hc,
   fun t corrPs hct ht hne h1 h2 =>
     capture_sample_broadcast_error c s t basePs corrPs hb hct ht hne h1 h2⟩

/-- Counterexample to C4 as stated: a store whose first sample fixed a
6-channel pose vector accepts a 3-channel sample with no `ShapeMismatch`
and appends it. -/
theorem sample_store_no_shape_check_counterexample :
    capture_sample
      ⟨"base", ["j"], none, [⟨[1, 2, 3, 4, 5, 6], [⟨0, 0, 0⟩]⟩], 1⟩
      ⟨fun _ _ => 0, fun m => if m = "base" then some [⟨0, 0, 0⟩] else none⟩
      none
      = .ok ⟨"base", ["j"], none,
          [⟨[1, 2, 3, 4, 5, 6], [⟨0, 0, 0⟩]⟩, ⟨[0, 0, 0], [⟨0, 0, 0⟩]⟩], 1⟩ := by
  rfl

/-- Witness for C4 (amended): both conjuncts at concrete inputs — the
append with a mismatched pose length succeeds, the broadcast mismatch
raises. -/
theorem sample_store_no_shape_check_witness :
    capture_sample
      ⟨"base", ["j"], none, [⟨[1, 2, 3, 4, 5, 6], [⟨0, 0, 0⟩]⟩], 1⟩
      ⟨fun _ _ => 0, fun m => if m = "base" then some [⟨0, 0, 0⟩] else none⟩
      none
      = .ok ⟨"base", ["j"], none,
          [⟨[1, 2, 3, 4, 5, 6], [⟨0, 0, 0⟩]⟩,
           ⟨getJointAngles
              ⟨"base", ["j"], none, [⟨[1, 2, 3, 4, 5, 6], [⟨0, 0, 0⟩]⟩], 1⟩
              ⟨fun _ _ => 0, fun m => if m = "base" then some [⟨0, 0, 0⟩] else none⟩,
            [(⟨0, 0, 0⟩ : Vec3)].map fun _ => Vec3.zero⟩], 1⟩ ∧
    capture_sample
      ⟨"base", ["j"], some "corr", [], 1⟩
      ⟨fun _ _ => 0,
       fun m => if m = "base" then some [⟨0, 0, 0⟩, ⟨1, 1, 1⟩]
         else if m = "corr" then some [⟨0, 0, 0⟩, ⟨1, 1, 1⟩, ⟨2, 2, 2⟩] else none⟩
      none
      = .error "ValueError: operands could not be broadcast" :=
  ⟨(sample_store_no_shape_check
      ⟨"base", ["j"], none, [⟨[1, 2, 3, 4, 5, 6], [⟨0, 0, 0⟩]⟩], 1⟩
      ⟨fun _ _ => 0, fun m => if m = "base" then some [⟨0, 0, 0⟩] else none⟩
      [⟨0, 0, 0⟩] (by decide)).1 rfl,
   (sample_store_no_shape_check
      ⟨"base", ["j"], some "corr", [], 1⟩
      ⟨fun _ _ => 0,
       fun m => if m = "base" then some [⟨0, 0, 0⟩, ⟨1, 1, 1⟩]
         else if m = "corr" then some [⟨0, 0, 0⟩, ⟨1, 1, 1⟩, ⟨2, 2, 2⟩] else none⟩
      [⟨0, 0, 0⟩, ⟨1, 1, 1⟩] (by decide)).2 "corr"
      [⟨0, 0, 0⟩, ⟨1, 1, 1⟩, ⟨2, 2, 2⟩] rfl (by decide)
      (by decide) (by decide) (by decide)⟩

/-- Joint-angle reads only depend on the tracked joints and the pointwise
attribute values. -/
lemma getJointAngles_congr (c c' : DataCollector) (s t : Scene)
    (hj : c'.joints = c.joints) (h : ∀ j a, t.attrs j a = s.attrs j a) :
    getJointAngles c' t = getJointAngles c s := by
  unfold getJointAngles
  rw [hj]
  induction c.joints with
  | nil => rfl
  | cons j js ih => simp [List.flatMap_cons, h, ih]

/-- Overwriting the same channel twice reads like writing only the second
value. -/
lemma setAttr_setAttr (s : Scene) (joint axis : String) (u v : ℚ)
    (j a : String) :
    (setAttr (setAttr s joint axis u) joint axis v).attrs j a
      = (setAttr s joint axis v).attrs j a := by
  simp only [setAttr]
  by_cases h : j = joint ∧ a = axis <;> simp [h]

/-- Indexing a flat pose vector built from 3-element blocks: entry
`3*k + ai` comes from the `k`-th joint's block. -/
lemma flatMap3_get (f : String → List ℚ) (h3 : ∀ j, (f j).length = 3) :
    ∀ (js : List String) (k ai : ℕ) (j : String), ai < 3 →
      js.get? k = some j →
      (js.flatMap f).get? (3 * k + ai) = (f j).get? ai := by
  intro js
  induction js with
  | nil => intro k ai j _ h; simp at h
  | cons j0 rest ih =>
    intro k ai j hai hk
    cases k with
    | zero =>
      have hj : j0 = j := by simpa using hk
      subst hj
      have hz : 3 * 0 + ai = ai := by omega
      rw [List.flatMap_cons, hz, List.get?_append (by rw [h3]; omega)]
    | succ k' =>
      have hsplit : 3 * (k' + 1) + ai = (f j0).length + (3 * k' + ai) := by
        rw [h3]; omega
      rw [List.flatMap_cons, hsplit, List.get?_append_right (by omega)]
      simp only [Nat.add_sub_cancel_left]
      exact ih k' ai j hai (by simpa using hk)

/-- `np.linspace` returns exactly `num` values. -/
lemma linspace_length (start stop : ℚ) (n : ℕ) :
    (linspace start stop n).length = n := by
  match n with
  | 0 => rfl
  | 1 => rfl
  | n + 2 =>
    show ((List.range (n + 2)).map fun i : ℕ =>
      start + (stop - start) * (i : ℚ) / ((n : ℚ) + 1)).length = n + 2
    rw [List.length_map, List.length_range]

/-- The capture loop over a list of channel values: under an existing base
mesh and no corrective mesh it succeeds, appending one zero-delta sample
per value, the pose read against the freshly set channel; meshes are never
touched. -/
lemma captureSteps_spec (joint axis : String) (basePs : List Vec3) :
    ∀ (vs : List ℚ) (c : DataCollector) (s : Scene),
      s.meshes c.base_mesh = some basePs → c.corrective_mesh = none →
      ∃ s', captureSteps joint axis vs c s = .ok
        ({ c with samples := c.samples ++ vs.map fun v =>
             ⟨getJointAngles c (setAttr s joint axis v),
              basePs.map fun _ => Vec3.zero⟩ }, s') ∧
        s'.meshes = s.meshes := by
  intro vs
  induction vs with
  | nil =>
    intro c s hb hc
    refine ⟨s, ?_, rfl⟩
    show Except.ok (c, s) = _
    rw [show (List.map (fun v => (⟨getJointAngles c (setAttr s joint axis v),
        basePs.map fun _ => Vec3.zero⟩ : Sample)) [] : List Sample) = [] from rfl,
      List.append_nil]
  | cons v rest ih =>
    intro c s hb hc
    have hb' : (setAttr s joint axis v).meshes c.base_mesh = some basePs := hb
    have hstep := capture_sample_none c (setAttr s joint axis v) basePs hb' hc
    obtain ⟨s', hrec, hm⟩ := ih
      { c with samples := c.samples ++
          [⟨getJointAngles c (setAttr s joint axis v),
            basePs.map fun _ => Vec3.zero⟩] }
      (setAttr s joint axis v) hb' hc
    refine ⟨s', ?_, hm⟩
    show (match capture_sample c (setAttr s joint axis v) none with
      | .error e => (.error e : Except String (DataCollector × Scene))
      | .ok c' => captureSteps joint axis rest c' (setAttr s joint axis v)) = _
    rw [hstep]
    show captureSteps joint axis rest
      { c with samples := c.samples ++
          [⟨getJointAngles c (setAttr s joint axis v),
            basePs.map fun _ => Vec3.zero⟩] }
      (setAttr s joint axis v) = _
    rw [hrec]
    have hmapeq : (fun v' : ℚ =>
        (⟨getJointAngles
            { c with samples := c.samples ++
                [⟨getJointAngles c (setAttr s joint axis v),
                  basePs.map fun _ => Vec3.zero⟩] }
            (setAttr (setAttr s joint axis v) joint axis v'),
          basePs.map fun _ => Vec3.zero⟩ : Sample))
        = (fun v' : ℚ =>
          ⟨getJointAngles c (setAttr s joint axis v'),
           basePs.map fun _ => Vec3.zero⟩) := by
      funext v'
      rw [getJointAngles_congr c
        { c with samples := c.samples ++
            [⟨getJointAngles c (setAttr s joint axis v),
              basePs.map fun _ => Vec3.zero⟩] }
        (setAttr s joint axis v')
        (setAttr (setAttr s joint axis v) joint axis v') rfl
        (setAttr_setAttr s joint axis v v')]
    rw [hmapeq]
    simp only [List.map_cons, List.append_assoc, List.singleton_append]

/-- C5 (confirmed): `capture_pose_range` over a tracked channel captures
exactly `steps` samples whose channel values are `np.linspace start stop
steps` — in particular `0..120` in 5 steps gives `[0, 30, 60, 90, 120]` —
and restores the channel to its pre-call value afterwards. -/
theorem pose_sampler_capture_range (c : DataCollector) (s : Scene)
    (joint axis : String) (k ai : ℕ) (basePs : List Vec3)
    (start stop : ℚ) (steps : ℕ)
    (hj : c.joints.get? k = some joint) (ha : axisIndex axis = some ai)
    (hb : s.meshes c.base_mesh = some basePs) (hc : c.corrective_mesh = none)
    (hs : 1 ≤ steps) :
    linspace 0 120 5 = [0, 30, 60, 90, 120] ∧
    ∃ c' s', capture_pose_range c s joint axis start stop steps
        = .ok (c', s') ∧
      c'.samples.length = c.samples.length + steps ∧
      (∀ m, m < steps →
        ((c'.samples.get? (c.samples.length + m)).bind
            fun smp => smp.joint_angles.get? (3 * k + ai))
          = (linspace start stop steps).get? m) ∧
      s'.attrs joint axis = s.attrs joint axis := by
  have hlin : linspace 0 120 5 = [0, 30, 60, 90, 120] := by
    unfold linspace
    norm_num [List.range_succ]
  refine ⟨hlin, ?_⟩
  obtain ⟨s', hrec, hm⟩ :=
    captureSteps_spec joint axis basePs (linspace start stop steps) c s hb hc
  refine ⟨{ c with samples := c.samples ++
      (linspace start stop steps).map fun v =>
        ⟨getJointAngles c (setAttr s joint axis v),
         basePs.map fun _ => Vec3.zero⟩ },
    setAttr s' joint axis (s.attrs joint axis), ?_, ?_, ?_, ?_⟩
  · unfold capture_pose_range
    rw [hrec]
  · simp [List.length_append, List.length_map, linspace_length]
  · intro m hm'
    have hlen : c.samples.length ≤ c.samples.length + m := by omega
    rw [List.get?_append_right (by simpa using hlen)]
    simp only [Nat.add_sub_cancel_left]
    have hmlt : m < (linspace start stop steps).length := by
      rw [linspace_length]; exact hm'
    obtain ⟨v, hv⟩ : ∃ v, (linspace start stop steps).get? m = some v :=
      ⟨_, List.get?_eq_get hmlt⟩
    rw [List.get?_map, hv]
    show ((c.joints.flatMap fun j =>
      [(setAttr s joint axis v).attrs j "rotateX",
       (setAttr s joint axis v).attrs j "rotateY",
       (setAttr s joint axis v).attrs j "rotateZ"]).get? (3 * k + ai))
      = some v
    rw [flatMap3_get (fun j =>
      [(setAttr s joint axis v).attrs j "rotateX",
       (setAttr s joint axis v).attrs j "rotateY",
       (setAttr s joint axis v).attrs j "rotateZ"])
      (fun j => rfl) c.joints k ai joint ?_ hj]
    · unfold axisIndex at ha
      split_ifs at ha with hx hy hz
      · subst hx
        cases ha
        simp [setAttr, hv]
      · subst hy
        cases ha
        simp [setAttr, hv]
      · subst hz
        cases ha
        simp [setAttr, hv]
    · unfold axisIndex at ha
      split_ifs at ha <;> simp_all <;> omega
  · simp [setAttr]

/-- Witness for C5 at a concrete collector, scene and range. -/
theorem pose_sampler_capture_range_witness :
    linspace 0 120 5 = [0, 30, 60, 90, 120] ∧
    ∃ c' s', capture_pose_range
        ⟨"base", ["j"], none, [], 1⟩
        ⟨fun _ _ => 7, fun m => if m = "base" then some [⟨0, 0, 0⟩] else none⟩
        "j" "rotateZ" 0 120 5 = .ok (c', s') ∧
      c'.samples.length = 0 + 5 ∧
      (∀ m, m < 5 →
        ((c'.samples.get? (0 + m)).bind
            fun smp => smp.joint_angles.get? (3 * 0 + 2))
          = (linspace 0 120 5).get? m) ∧
      s'.attrs "j" "rotateZ" = 7 :=
  pose_sampler_capture_range
    ⟨"base", ["j"], none, [], 1⟩
    ⟨fun _ _ => 7, fun m => if m = "base" then some [⟨0, 0, 0⟩] else none⟩
    "j" "rotateZ" 0 2 [⟨0, 0, 0⟩] 0 120 5 rfl rfl (by decide) rfl (by omega)

/-- C9 (corrected): the dataset loader performs no mutual-consistency
validation — any file whose two arrays are non-empty is accepted, the
sample count read off the pose array, `numJoints` off its first row and
`numVertices` off the first delta row, no matter how the arrays disagree
with each other or with the stored `numVertices` scalar. -/
theorem dataset_loader_no_validation (f : DatasetFile)
    (r0 : List ℚ) (d0 : List Vec3)
    (h1 : f.joint_angles.head? = some r0)
    (h2 : f.vertex_deltas.head? = some d0) :
    loadDataset f = .ok
      { joint_angles := f.joint_angles, vertex_deltas := f.vertex_deltas,
        num_samples := f.joint_angles.length, num_joints := r0.length,
        num_vertices := d0.length } := by
  unfold loadDataset
  rw [h1, h2]

/-- Counterexample to C9 as stated: a file with two pose vectors but a
single delta entry, and a stored `numVertices` scalar of 7 disagreeing
with the delta row's single vertex, is accepted by the loader rather than
rejected. -/
theorem dataset_loader_no_validation_counterexample :
    ([[1, 2], [3, 4]] : List (List ℚ)).length
        ≠ ([[Vec3.zero]] : List (List Vec3)).length ∧
    (7 : ℕ) ≠ ([(Vec3.zero : Vec3)] : List Vec3).length ∧
    loadDataset ⟨[[1, 2], [3, 4]], [[Vec3.zero]], ["a"], 7⟩
      = .ok ⟨[[1, 2], [3, 4]], [[Vec3.zero]], 2, 2, 1⟩ :=
  ⟨by decide, by decide, rfl⟩

/-- Witness for C9 (amended) at a concrete inconsistent file. -/
theorem dataset_loader_no_validation_witness :
    loadDataset ⟨[[5]], [[Vec3.zero, Vec3.zero]], [], 0⟩
      = .ok ⟨[[5]], [[Vec3.zero, Vec3.zero]], 1, 1, 2⟩ :=
  dataset_loader_no_validation ⟨[[5]], [[Vec3.zero, Vec3.zero]], [], 0⟩
    [5] [Vec3.zero, Vec3.zero] rfl rfl

/-- C3 (corrected): save-then-load round-trips the DeltaField arrays
exactly, but the PoseVector arrays come back with every angle divided by
180 — the degrees-to-radians-over-π normalization `save_dataset` applies —
so the pose side is not byte-for-byte equal to the captured values. -/
theorem dataset_roundtrip_normalized (c : DataCollector)
    (h : c.samples ≠ []) :
    ∃ f, save_dataset c = some f ∧
      ∃ d, loadDataset f = .ok d ∧
        d.vertex_deltas = c.samples.map Sample.vertex_deltas ∧
        d.joint_angles
          = c.samples.map (fun smp => smp.joint_angles.map (· / 180)) ∧
        d.num_samples = c.samples.length := by
  refine ⟨{ joint_angles := c.samples.map fun smp =>
              smp.joint_angles.map (· / 180),
            vertex_deltas := c.samples.map fun smp => smp.vertex_deltas,
            joint_names := c.joints,
            num_vertices := c.num_vertices }, ?_, ?_⟩
  · unfold save_dataset
    rw [if_neg h]
  · cases hs : c.samples with
    | nil => exact absurd hs h
    | cons s0 rest =>
      refine ⟨{ joint_angles := (s0 :: rest).map fun smp =>
                  smp.joint_angles.map (· / 180),
                vertex_deltas := (s0 :: rest).map fun smp => smp.vertex_deltas,
                num_samples := ((s0 :: rest).map fun smp =>
                  smp.joint_angles.map (· / 180)).length,
                num_joints := (s0.joint_angles.map (· / 180)).length,
                num_vertices := s0.vertex_deltas.length }, ?_, rfl, rfl, by simp⟩
      rfl

/-- Counterexample to C3 as stated: a captured 90° pose round-trips as
1/2, not 90 — the loaded pose array differs byte-for-byte from the
captured one, while the delta array is preserved. -/
theorem dataset_roundtrip_counterexample :
    ∃ c1 f d,
      capture_sample ⟨"base", ["j"], none, [], 1⟩
        ⟨fun _ a => if a = "rotateX" then 90 else 0,
         fun m => if m = "base" then some [⟨0, 0, 0⟩] else none⟩ none
        = .ok c1 ∧
      save_dataset c1 = some f ∧
      loadDataset f = .ok d ∧
      c1.samples.map Sample.joint_angles = [[90, 0, 0]] ∧
      d.joint_angles = [[1/2, 0, 0]] ∧
      d.vertex_deltas = c1.samples.map Sample.vertex_deltas ∧
      d.joint_angles ≠ c1.samples.map Sample.joint_angles := by
  refine ⟨⟨"base", ["j"], none, [⟨[90, 0, 0], [⟨0, 0, 0⟩]⟩], 1⟩,
    ⟨[[1/2, 0, 0]], [[⟨0, 0, 0⟩]], ["j"], 1⟩,
    ⟨[[1/2, 0, 0]], [[⟨0, 0, 0⟩]], 1, 3, 1⟩,
    rfl, ?_, rfl, rfl, rfl, rfl, by
      show ¬ ([[(1 : ℚ)/2, 0, 0]] = [[90, 0, 0]])
      norm_num⟩
  show save_dataset ⟨"base", ["j"], none, [⟨[90, 0, 0], [⟨0, 0, 0⟩]⟩], 1⟩
    = some ⟨[[1/2, 0, 0]], [[⟨0, 0, 0⟩]], ["j"], 1⟩
  unfold save_dataset
  rw [if_neg (by decide : ¬ ([(⟨[90, 0, 0], [⟨0, 0, 0⟩]⟩ : Sample)]
    : List Sample) = [])]
  norm_num

/-- Witness for C3 (amended) at a one-sample collector. -/
theorem dataset_roundtrip_normalized_witness :
    ∃ f, save_dataset ⟨"base", ["j"], none,
        [⟨[90, 0, 0], [⟨1, 2, 3⟩]⟩], 1⟩ = some f ∧
      ∃ d, loadDataset f = .ok d ∧
        d.vertex_deltas = ([⟨[90, 0, 0], [⟨1, 2, 3⟩]⟩] : List Sample).map
          Sample.vertex_deltas ∧
        d.joint_angles = ([⟨[90, 0, 0], [⟨1, 2, 3⟩]⟩] : List Sample).map
          (fun smp => smp.joint_angles.map (· / 180)) ∧
        d.num_samples = ([⟨[90, 0, 0], [⟨1, 2, 3⟩]⟩] : List Sample).length :=
  dataset_roundtrip_normalized
    ⟨"base", ["j"], none, [⟨[90, 0, 0], [⟨1, 2, 3⟩]⟩], 1⟩ (by decide)

/-! ## Lemmas about the training loop -/

/-- One more epoch is one more fold step. -/
lemma train_succ (losses : ℕ → ℚ × ℚ) (N : ℕ) :
    train losses (N + 1) = trainEpochStep losses (train losses N) N := by
  unfold train
  rw [List.range_succ, List.foldl_append]
  rfl

/-- The checkpoints an epoch appends, as a function of its two write
conditions. -/
lemma trainEpochStep_checkpoints (losses : ℕ → ℚ × ℚ) (st : TrainerState)
    (e : ℕ) :
    (trainEpochStep losses st e).checkpoints
      = st.checkpoints
        ++ (if beatsBest (losses e).2 st.best_val_loss
            then [(CheckpointKind.best, e, (losses e).2)] else [])
        ++ (if (e + 1) % 10 = 0
            then [(CheckpointKind.periodic (e + 1), e, (losses e).2)]
            else []) := by
  unfold trainEpochStep
  by_cases hb : beatsBest (losses e).2 st.best_val_loss <;>
    by_cases hm : (e + 1) % 10 = 0 <;>
      simp [hb, hm]

/-- The best-seen validation loss after an epoch. -/
lemma trainEpochStep_best (losses : ℕ → ℚ × ℚ) (st : TrainerState) (e : ℕ) :
    (trainEpochStep losses st e).best_val_loss
      = if beatsBest (losses e).2 st.best_val_loss
        then some (losses e).2 else st.best_val_loss := by
  unfold trainEpochStep
  by_cases hb : beatsBest (losses e).2 st.best_val_loss <;>
    by_cases hm : (e + 1) % 10 = 0 <;>
      simp [hb, hm]

/-- The loss histories after an epoch. -/
lemma trainEpochStep_losses (losses : ℕ → ℚ × ℚ) (st : TrainerState) (e : ℕ) :
    (trainEpochStep losses st e).train_losses
        = st.train_losses ++ [(losses e).1] ∧
      (trainEpochStep losses st e).val_losses
        = st.val_losses ++ [(losses e).2] := by
  unfold trainEpochStep
  by_cases hb : beatsBest (losses e).2 st.best_val_loss <;>
    by_cases hm : (e + 1) % 10 = 0 <;>
      simp [hb, hm]

/-- After `N` epochs both histories have exactly `N` entries. -/
lemma train_losses_length (losses : ℕ → ℚ × ℚ) :
    ∀ N, (train losses N).train_losses.length = N ∧
      (train losses N).val_losses.length = N := by
  intro N
  induction N with
  | zero => exact ⟨rfl, rfl⟩
  | succ N ih =>
    rw [train_succ]
    refine ⟨?_, ?_⟩
    · rw [(trainEpochStep_losses losses (train losses N) N).1]
      simp [ih.1]
    · rw [(trainEpochStep_losses losses (train losses N) N).2]
      simp [ih.2]

/-- The strict-improvement test against the running best is exactly
"strictly below every previous epoch's validation loss" (vacuously true at
epoch 0, matching the `float('inf')` initial best). -/
lemma train_beats_iff (losses : ℕ → ℚ × ℚ) :
    ∀ N v, (beatsBest v ((train losses N).best_val_loss) = true
      ↔ ∀ i, i < N → v < (losses i).2) := by
  intro N
  induction N with
  | zero =>
    intro v
    simp [train, initTrainer, beatsBest]
  | succ N ih =>
    intro v
    rw [train_succ, trainEpochStep_best]
    by_cases hb : beatsBest (losses N).2 ((train losses N).best_val_loss) = true
    · rw [if_pos hb]
      constructor
      · intro hv i hi
        rcases Nat.lt_succ_iff_lt_or_eq.mp hi with h | h
        · have hN := (ih (losses N).2).mp hb i h
          have : v < (losses N).2 := by simpa [beatsBest] using hv
          exact lt_trans this hN
        · subst h
          simpa [beatsBest] using hv
      · intro hall
        simpa [beatsBest] using hall N (by omega)
    · rw [if_neg hb]
      constructor
      · intro hv i hi
        rcases Nat.lt_succ_iff_lt_or_eq.mp hi with h | h
        · exact (ih v).mp hv i h
        · cases hbv : (train losses N).best_val_loss with
          | none => rw [hbv] at hb; simp [beatsBest] at hb
          | some b =>
            rw [hbv] at hv hb
            simp only [beatsBest, decide_eq_true_eq] at hv hb
            have hb' : b ≤ (losses N).2 := not_lt.mp hb
            rw [h]
            linarith
      · intro hall
        exact (ih v).mpr fun i hi => hall i (by omega)

/-- Membership of a best-model checkpoint: written at epoch `e` of a run
of at least `e + 1` epochs exactly when `e`'s validation loss beat the
best seen entering that epoch. -/
lemma train_mem_best (losses : ℕ → ℚ × ℚ) :
    ∀ N e, ((CheckpointKind.best, e, (losses e).2)
        ∈ (train losses N).checkpoints
      ↔ e < N ∧
        beatsBest (losses e).2 ((train losses e).best_val_loss) = true) := by
  intro N
  induction N with
  | zero => intro e; simp [train, initTrainer]
  | succ N ih =>
    intro e
    rw [train_succ, trainEpochStep_checkpoints]
    simp only [List.mem_append]
    constructor
    · rintro ((h | h) | h)
      · obtain ⟨he, hb⟩ := (ih e).mp h
        exact ⟨by omega, hb⟩
      · by_cases hbN : beatsBest (losses N).2 ((train losses N).best_val_loss)
          = true
        · rw [if_pos hbN] at h
          simp only [List.mem_singleton, Prod.mk.injEq] at h
          obtain ⟨-, he, -⟩ := h
          subst he
          exact ⟨by omega, hbN⟩
        · rw [if_neg hbN] at h
          simp at h
      · by_cases hm : (N + 1) % 10 = 0
        · rw [if_pos hm] at h
          simp [Prod.ext_iff] at h
        · rw [if_neg hm] at h
          simp at h
    · rintro ⟨he, hb⟩
      rcases Nat.lt_succ_iff_lt_or_eq.mp he with h | h
      · exact Or.inl (Or.inl ((ih e).mpr ⟨h, hb⟩))
      · subst h
        refine Or.inl (Or.inr ?_)
        rw [if_pos hb]
        simp

/-- Membership of a periodic checkpoint: written at epoch `e` exactly when
`(e + 1) % 10 == 0`, recording `e`'s validation loss, unconditionally on
improvement. -/
lemma train_mem_periodic (losses : ℕ → ℚ × ℚ) :
    ∀ N e vl, ((CheckpointKind.periodic (e + 1), e, vl)
        ∈ (train losses N).checkpoints
      ↔ e < N ∧ (e + 1) % 10 = 0 ∧ vl = (losses e).2) := by
  intro N
  induction N with
  | zero => intro e vl; simp [train, initTrainer]
  | succ N ih =>
    intro e vl
    rw [train_succ, trainEpochStep_checkpoints]
    simp only [List.mem_append]
    constructor
    · rintro ((h | h) | h)
      · obtain ⟨he, hm, hv⟩ := (ih e vl).mp h
        exact ⟨by omega, hm, hv⟩
      · by_cases hbN : beatsBest (losses N).2 ((train losses N).best_val_loss)
          = true
        · rw [if_pos hbN] at h
          simp [Prod.ext_iff] at h
        · rw [if_neg hbN] at h
          simp at h
      · by_cases hm : (N + 1) % 10 = 0
        · rw [if_pos hm] at h
          simp only [List.mem_singleton, Prod.mk.injEq,
            CheckpointKind.periodic.injEq] at h
          obtain ⟨h1, h2, h3⟩ := h
          have he : e = N := by omega
          subst he
          exact ⟨by omega, by omega, h3⟩
        · rw [if_neg hm] at h
          simp at h
    · rintro ⟨he, hm, hv⟩
      rcases Nat.lt_succ_iff_lt_or_eq.mp he with h | h
      · exact Or.inl (Or.inl ((ih e vl).mpr ⟨h, hm, hv⟩))
      · subst h
        subst hv
        refine Or.inr ?_
        rw [if_pos hm]
        simp

/-- C6 (confirmed): over any `N`-epoch run, a best-model checkpoint is
written at epoch `e` exactly when `e`'s validation loss is strictly lower
than every earlier epoch's (the lowest seen so far; epoch 0 always
writes, its "lowest so far" being the initial infinity); a periodic
checkpoint is written exactly at each epoch with `(e+1) % 10 == 0`,
regardless of improvement; both loss histories end with exactly `N`
entries, so at least `N`. -/
theorem trainer_checkpoint_policy (losses : ℕ → ℚ × ℚ) (N : ℕ) :
    (train losses N).train_losses.length = N ∧
    (train losses N).val_losses.length = N ∧
    (∀ e, ((CheckpointKind.best, e, (losses e).2)
        ∈ (train losses N).checkpoints
      ↔ e < N ∧ ∀ i, i < e → (losses e).2 < (losses i).2)) ∧
    (∀ e vl, ((CheckpointKind.periodic (e + 1), e, vl)
        ∈ (train losses N).checkpoints
      ↔ e < N ∧ (e + 1) % 10 = 0 ∧ vl = (losses e).2)) := by
  refine ⟨(train_losses_length losses N).1, (train_losses_length losses N).2,
    ?_, train_mem_periodic losses N⟩
  intro e
  rw [train_mem_best losses N e]
  constructor
  · rintro ⟨he, hb⟩
    exact ⟨he, (train_beats_iff losses e (losses e).2).mp hb⟩
  · rintro ⟨he, hib⟩
    exact ⟨he, (train_beats_iff losses e (losses e).2).mpr hib⟩

/-- Witness for C6: a 2-epoch run with a worsening validation loss writes
a best checkpoint at epoch 0 and none at epoch 1, and both histories have
length 2. -/
theorem trainer_checkpoint_policy_witness :
    (train (fun e => (1, if e = 0 then 5 else 9)) 2).train_losses.length = 2 ∧
    ((CheckpointKind.best, 0,
        ((fun e : ℕ => ((1 : ℚ), if e = 0 then (5 : ℚ) else 9)) 0).2)
      ∈ (train (fun e => (1, if e = 0 then 5 else 9)) 2).checkpoints
      ↔ 0 < 2 ∧ ∀ i, i < 0 →
        ((fun e : ℕ => ((1 : ℚ), if e = 0 then (5 : ℚ) else 9)) 0).2
          < ((fun e : ℕ => ((1 : ℚ), if e = 0 then (5 : ℚ) else 9)) i).2) :=
  ⟨(trainer_checkpoint_policy (fun e => (1, if e = 0 then 5 else 9)) 2).1,
   (trainer_checkpoint_policy
     (fun e => (1, if e = 0 then 5 else 9)) 2).2.2.1 0⟩

/-! ## Exporter and model-construction claims -/

/-- C7 (code_bug): `export_for_maya` reads attributes two of the three
model classes never set.  For a residual model the uncaught read of
`model.num_joints` aborts the export before any format is attempted and no
metadata is written; for a compact model both formats are attempted but
the metadata write aborts on `model.num_vertices`; only for the standard
model are the formats attempted independently with the metadata descriptor
always written, as the spec demands for every variant. -/
theorem exporter_attribute_bug :
    (∃ net, create_model "residual" 6 100 {} = .ok net ∧
      ∀ ts onnx : Except String Unit,
        export_for_maya net.attrs ts onnx (some 1) "2026-01-01"
          = ⟨false, false, none, some "AttributeError: num_joints"⟩) ∧
    (∃ net, create_model "compact" 6 100 {} = .ok net ∧
      ∀ ts onnx : Except String Unit,
        export_for_maya net.attrs ts onnx (some 1) "2026-01-01"
          = ⟨ts.toBool, onnx.toBool, none,
             some "AttributeError: num_vertices"⟩) ∧
    (∃ net, create_model "standard" 6 100 {} = .ok net ∧
      ∀ (ts onnx : Except String Unit) (bvl : Option ℚ) (date : String),
        export_for_maya net.attrs ts onnx bvl date
          = ⟨ts.toBool, onnx.toBool, some ⟨6, 100, bvl, date⟩, none⟩) :=
  ⟨⟨_, rfl, fun _ _ => rfl⟩, ⟨_, rfl, fun _ _ => rfl⟩,
   ⟨_, rfl, fun _ _ _ _ => rfl⟩⟩

/-- The hidden stack builds successfully from non-negative sizes, and the
final input width stays non-negative. -/
lemma buildHidden_ok (hidden : List ℤ) :
    ∀ (inSize : ℤ), 0 ≤ inSize → (∀ h ∈ hidden, 0 ≤ h) →
      ∃ hs, buildHidden inSize hidden = .ok hs ∧
        0 ≤ hidden.getLast?.getD inSize := by
  induction hidden with
  | nil => intro inSize h0 _; exact ⟨[], rfl, h0⟩
  | cons h rest ih =>
    intro inSize h0 hall
    have hh0 : 0 ≤ h := hall h (by simp)
    obtain ⟨hs, hok, hlast⟩ := ih h hh0 (fun x hx => hall x (by simp [hx]))
    refine ⟨(inSize, h) :: hs, ?_, ?_⟩
    · unfold buildHidden
      rw [show mkLinear inSize h = .ok (inSize, h) from by
        unfold mkLinear
        rw [if_neg (by omega)]]
      rw [hok]
    · cases rest with
      | nil => simpa using hh0
      | cons a l => simpa [List.getLast?_cons_cons] using hlast

/-- C8 (corrected): no `InvalidArchitecture` validation exists anywhere —
every variant constructs successfully for all non-negative dimensions,
including `numJoints = 0`, `numVertices = 0` and an empty hidden-layer
list; only an unknown architecture-kind string fails (`ValueError`), and
a negative dimension fails inside the numeric library's layer
constructor, not with `InvalidArchitecture`. -/
theorem model_factory_no_validation (num_joints num_vertices : ℤ)
    (hidden : List ℤ) (pca hiddenSize : ℤ) (numBlocks : ℕ)
    (hj : 0 ≤ num_joints) (hv : 0 ≤ num_vertices)
    (hh : ∀ h ∈ hidden, 0 ≤ h) (hp : 0 ≤ pca) (hs : 0 ≤ hiddenSize) :
    (∃ net, CorrectiveDeformerNet num_joints num_vertices hidden
      = .ok net) ∧
    (∃ net, CompactCorrectiveNet num_joints pca hidden = .ok net) ∧
    (∃ net, ResidualCorrectiveNet num_joints num_vertices hiddenSize
      numBlocks = .ok net) ∧
    create_model "transformer" num_joints num_vertices {}
      = .error "ValueError: Unknown model type" := by
  obtain ⟨hsl, hok, hlast⟩ := buildHidden_ok hidden num_joints hj hh
  refine ⟨⟨⟨hsl ++ [(hidden.getLast?.getD num_joints, num_vertices * 3)],
      ⟨some num_joints.toNat, some num_vertices.toNat, none⟩⟩, ?_⟩,
    ⟨⟨hsl ++ [(hidden.getLast?.getD num_joints, pca)],
      ⟨some num_joints.toNat, none, some pca.toNat⟩⟩, ?_⟩,
    ⟨⟨(num_joints, hiddenSize) ::
        (List.replicate numBlocks [(hiddenSize, hiddenSize),
          (hiddenSize, hiddenSize)]).flatten
        ++ [(hiddenSize, num_vertices * 3)],
      ⟨none, some num_vertices.toNat, none⟩⟩, ?_⟩, rfl⟩
  · unfold CorrectiveDeformerNet
    rw [hok]
    show (match mkLinear (hidden.getLast?.getD num_joints)
        (num_vertices * 3) with
      | .error e => (.error e : Except String BuiltNet)
      | .ok out => .ok ⟨hsl ++ [out],
          ⟨some num_joints.toNat, some num_vertices.toNat, none⟩⟩) = _
    rw [show mkLinear (hidden.getLast?.getD num_joints)
        (num_vertices * 3) = .ok (hidden.getLast?.getD num_joints,
        num_vertices * 3) from by
      unfold mkLinear
      rw [if_neg (by push_neg; exact ⟨hlast, by positivity⟩)]]
  · unfold CompactCorrectiveNet
    rw [hok]
    show (match mkLinear (hidden.getLast?.getD num_joints) pca with
      | .error e => (.error e : Except String BuiltNet)
      | .ok out => .ok ⟨hsl ++ [out],
          ⟨some num_joints.toNat, none, some pca.toNat⟩⟩) = _
    rw [show mkLinear (hidden.getLast?.getD num_joints) pca
        = .ok (hidden.getLast?.getD num_joints, pca) from by
      unfold mkLinear
      rw [if_neg (by omega)]]
  · unfold ResidualCorrectiveNet
    rw [show mkLinear num_joints hiddenSize = .ok (num_joints, hiddenSize)
        from by
      unfold mkLinear
      rw [if_neg (by omega)]]
    show (match mkLinear hiddenSize hiddenSize with
      | .error e => (.error e : Except String BuiltNet)
      | .ok block =>
        let blocks := (List.replicate numBlocks [block, block]).flatten
        match mkLinear hiddenSize (num_vertices * 3) with
        | .error e => .error e
        | .ok outProj =>
          .ok ⟨(num_joints, hiddenSize) :: blocks ++ [outProj],
            ⟨none, some num_vertices.toNat, none⟩⟩) = _
    rw [show mkLinear hiddenSize hiddenSize = .ok (hiddenSize, hiddenSize)
        from by
      unfold mkLinear
      rw [if_neg (by omega)]]
    show (match mkLinear hiddenSize (num_vertices * 3) with
      | .error e => (.error e : Except String BuiltNet)
      | .ok outProj =>
        .ok ⟨(num_joints, hiddenSize) ::
          (List.replicate numBlocks [(hiddenSize, hiddenSize),
            (hiddenSize, hiddenSize)]).flatten ++ [outProj],
          ⟨none, some num_vertices.toNat, none⟩⟩) = _
    rw [show mkLinear hiddenSize (num_vertices * 3)
        = .ok (hiddenSize, num_vertices * 3) from by
      unfold mkLinear
      rw [if_neg (by push_neg; exact ⟨hs, by positivity⟩)]]

/-- Counterexample to C8 as stated: `numJoints = 0`, `numVertices = 0` and
an empty hidden-layer list all at once construct successfully through the
factory — no `InvalidArchitecture` is raised. -/
theorem model_factory_no_validation_counterexample :
    create_model "standard" 0 0 { hidden_layers := some [] }
      = .ok ⟨[(0, 0)], ⟨some 0, some 0, none⟩⟩ := rfl

/-- Witness for C8 (amended) at concrete degenerate dimensions. -/
theorem model_factory_no_validation_witness :
    (∃ net, CorrectiveDeformerNet 0 0 [] = .ok net) ∧
    (∃ net, CompactCorrectiveNet 0 0 [] = .ok net) ∧
    (∃ net, ResidualCorrectiveNet 0 0 0 4 = .ok net) ∧
    create_model "transformer" 0 0 {}
      = .error "ValueError: Unknown model type" :=
  model_factory_no_validation 0 0 [] 0 0 4 (by omega) (by omega)
    (by simp) (by omega) (by omega)

end MLDeformer
